import Mathlib

/-!
Verification of the StockaDoodle inventory-management system.

The development shallowly embeds the inventory core of the repository:
the sequence-counter allocator (`api_server/utils/counters.get_next_sequence`,
seeded by `api_server/counters_init.py`), the base-document auto-id hook
(`api_server/models/base.py`), the stock-batch ledger operations invoked by
the desktop UI, and the report generator
(`api_server/core/report_generator.py`).

Dates are embedded as integer day numbers, monetary amounts as rationals,
and all integer fields of the store as `Int` (Python integers are unbounded).
-/

namespace StockaDoodle

/-! ## Sequence allocator

`get_next_sequence` itself lives in `api_server/utils/counters.py`, which is
referenced by `models/base.py` but not part of the source tree; the spec
(section 4.1) describes it as a single atomic find-and-increment against the
counters collection. The counter store is embedded as a function from
collection names to the current `seq` value. -/

/-- Modelled from the spec: `get_next_sequence` is missing from the source
(only its caller `BaseDocument.save` and the seeding script are present).
Per spec section 4.1 it atomically increments the named counter and returns
the new value. -/
def get_next_sequence (ctr : String → Int) (name : String) : Int × (String → Int) :=
  (ctr name + 1, fun n => if n = name then ctr n + 1 else ctr n)

/-- Modelled from the spec: each `allocate_id` call is one atomic step against
the store (spec sections 4.1 and 5), so any concurrent execution of calls is
some serialization of those atomic steps.  A trace is the serialization order
of the collection names requested; `runTrace` returns the (name, id) pair
each call observed. -/
def runTrace (ctr : String → Int) : List String → List (String × Int)
  | [] => []
  | t :: rest => (t, ctr t + 1) :: runTrace (get_next_sequence ctr t).2 rest

/-- Values returned to the callers that asked for collection `x`, in
serialization order. -/
def returnedFor (x : String) (res : List (String × Int)) : List Int :=
  (res.filter (fun r => r.1 = x)).map (fun r => r.2)

/-- The gap-free run of ids `c+1, c+2, ..., c+n`. -/
def idsFrom (c : Int) (n : Nat) : List Int :=
  (List.range n).map (fun (i : Nat) => c + 1 + (i : Int))

lemma idsFrom_nodup (c : Int) (n : Nat) : (idsFrom c n).Nodup := by
  unfold idsFrom
  apply List.Nodup.map
  · intro a b hab
    simpa using hab
  · exact List.nodup_range n

lemma idsFrom_succ (c : Int) (n : Nat) :
    idsFrom c (n + 1) = (c + 1) :: idsFrom (c + 1) n := by
  unfold idsFrom
  rw [List.range_succ_eq_map]
  simp only [List.map_cons, List.map_map, Nat.cast_zero, add_zero]
  congr 1
  apply List.map_congr_left
  intro a _
  simp only [Function.comp_apply]
  push_cast
  ring

lemma returnedFor_cons_self (x : String) (v : Int) (res : List (String × Int)) :
    returnedFor x ((x, v) :: res) = v :: returnedFor x res := by
  simp [returnedFor]

lemma returnedFor_cons_ne (x t : String) (h : t ≠ x) (v : Int)
    (res : List (String × Int)) :
    returnedFor x ((t, v) :: res) = returnedFor x res := by
  simp [returnedFor, h]

lemma bump_eq (ctr : String → Int) (t : String) :
    (get_next_sequence ctr t).2 t = ctr t + 1 := by
  simp [get_next_sequence]

lemma bump_ne (ctr : String → Int) (t x : String) (h : t ≠ x) :
    (get_next_sequence ctr t).2 x = ctr x := by
  simp only [get_next_sequence]
  rw [if_neg (Ne.symm h)]

lemma returnedFor_runTrace (ctr : String → Int) (trace : List String) (x : String) :
    returnedFor x (runTrace ctr trace) = idsFrom (ctr x) (trace.count x) := by
  induction trace generalizing ctr with
  | nil => simp [runTrace, returnedFor, idsFrom]
  | cons t rest ih =>
    by_cases hx : t = x
    · subst hx
      rw [runTrace, returnedFor_cons_self, List.count_cons_self, idsFrom_succ,
        ih (get_next_sequence ctr t).2, bump_eq]
    · rw [runTrace, returnedFor_cons_ne x t hx, List.count_cons_of_ne (Ne.symm hx),
        ih (get_next_sequence ctr t).2, bump_ne ctr t x hx]

/-! ## Base document save hook (`api_server/models/base.py`)

`BaseDocument.save` assigns `self.id = get_next_sequence(collection)` only
when `getattr(self, 'id', None) is None`, then delegates to the mongoengine
save.  The persistence side is opaque; the hook's effect on the document and
the counter store is embedded. -/

structure MDoc where
  id : Option Int
  collection : String
  payload : String
  deriving Repr, DecidableEq

/-- Embedding of `BaseDocument.save` from `api_server/models/base.py`:
if the document has no id, allocate one from the counter for its collection;
otherwise leave document and counters untouched. -/
def save (ctr : String → Int) (d : MDoc) : MDoc × (String → Int) :=
  match d.id with
  | none =>
      let r := get_next_sequence ctr d.collection
      ({ d with id := some r.1 }, r.2)
  | some _ => (d, ctr)

/-! ## Stock-batch ledger

The ledger endpoints (`add_stock_batch`, `dispose_stock_batch`,
`delete_stock_batch`) are invoked by the desktop UI
(`desktop_app/ui/pages/products/product_detail.py`) but their server-side
implementation is not part of the source tree.  They are modelled from spec
section 4.2.  Quantities and stock levels are `Int` (Python integers). -/

structure StockBatch where
  id : Int
  product_id : Int
  quantity : Int
  expiration_date : Option Int
  deriving Repr, DecidableEq

structure LedgerProduct where
  id : Int
  min_stock_level : Int
  stock_level : Int
  deriving Repr, DecidableEq

structure LedgerState where
  seq : Int
  products : List LedgerProduct
  batches : List StockBatch
  deriving Repr, DecidableEq

inductive LedgerError where
  | ProductNotFound
  | InvalidQuantity
  | InsufficientQuantity
  | BatchNotEmpty
  | NotFound
  deriving Repr, DecidableEq

/-- Sum of quantities over the batches belonging to product `pid`. -/
def sumQty (pid : Int) (l : List StockBatch) : Int :=
  (l.map (fun b => if b.product_id = pid then b.quantity else 0)).sum

/-- Adjust the derived `stock_level` of product `pid` by `delta`. -/
def bumpStock (pid delta : Int) (ps : List LedgerProduct) : List LedgerProduct :=
  ps.map (fun p => if p.id = pid then { p with stock_level := p.stock_level + delta } else p)

/-- Modelled from the spec: `add_batch` (spec section 4.2) is missing from the
source (only the UI caller is present).  It rejects non-positive quantities
and unknown products, allocates a fresh id, persists the batch and increments
the product's `stock_level` by the batch quantity in the same atomic unit. -/
def add_batch (st : LedgerState) (pid qty : Int) (exp : Option Int) :
    Except LedgerError (StockBatch × LedgerState) :=
  if qty ≤ 0 then .error .InvalidQuantity
  else
    match st.products.find? (fun p => p.id == pid) with
    | none => .error .ProductNotFound
    | some _ =>
        let b : StockBatch :=
          { id := st.seq + 1, product_id := pid, quantity := qty, expiration_date := exp }
        .ok (b, { seq := st.seq + 1, products := bumpStock pid qty st.products,
                  batches := st.batches ++ [b] })

/-- Decrement the quantity of the first batch with id `bid` by `q`. -/
def disposeFirst (bid q : Int) : List StockBatch → List StockBatch
  | [] => []
  | b :: rest =>
      if b.id == bid then { b with quantity := b.quantity - q } :: rest
      else b :: disposeFirst bid q rest

/-- Remove the first batch with id `bid`. -/
def removeFirst (bid : Int) : List StockBatch → List StockBatch
  | [] => []
  | b :: rest => if b.id == bid then rest else b :: removeFirst bid rest

/-- Modelled from the spec: `dispose` (spec section 4.2) is missing from the
source (only the UI caller is present).  It rejects non-positive quantities,
fails with `InsufficientQuantity` when the requested quantity exceeds the
batch's current quantity, and on success decrements the batch quantity and
the product's `stock_level` by the same amount atomically. -/
def dispose (st : LedgerState) (bid q : Int) :
    Except LedgerError (StockBatch × LedgerState) :=
  if q ≤ 0 then .error .InvalidQuantity
  else
    match st.batches.find? (fun x => x.id == bid) with
    | none => .error .NotFound
    | some b =>
        if b.quantity < q then .error .InsufficientQuantity
        else .ok ({ b with quantity := b.quantity - q },
          { st with batches := disposeFirst bid q st.batches,
                    products := bumpStock b.product_id (-q) st.products })

/-- Modelled from the spec: `delete_batch` (spec section 4.2) is missing from
the source (only the UI guard in `product_detail.py` is present).  It fails
with `BatchNotEmpty` when the batch still has quantity > 0 and otherwise
removes the batch; `stock_level` is untouched (the removed batch holds 0). -/
def delete_batch (st : LedgerState) (bid : Int) : Except LedgerError LedgerState :=
  match st.batches.find? (fun x => x.id == bid) with
  | none => .error .NotFound
  | some b =>
      if 0 < b.quantity then .error .BatchNotEmpty
      else .ok { st with batches := removeFirst bid st.batches }

inductive LedgerOp where
  | add (pid qty : Int) (exp : Option Int)
  | disp (bid qty : Int)
  | del (bid : Int)
  deriving Repr, DecidableEq

/-- One ledger call; a failed call leaves the persisted state unchanged
(spec section 7: every mutating operation is all-or-nothing). -/
def applyOp (st : LedgerState) : LedgerOp → LedgerState
  | .add pid qty exp =>
      match add_batch st pid qty exp with
      | .ok r => r.2
      | .error _ => st
  | .disp bid qty =>
      match dispose st bid qty with
      | .ok r => r.2
      | .error _ => st
  | .del bid =>
      match delete_batch st bid with
      | .ok r => r
      | .error _ => st

def runOps (st : LedgerState) (ops : List LedgerOp) : LedgerState :=
  ops.foldl applyOp st

/-- The ledger's central invariant: every product's derived `stock_level`
equals the sum of quantities over its live batches. -/
def Inv (st : LedgerState) : Prop :=
  ∀ p ∈ st.products, p.stock_level = sumQty p.id st.batches

/-- Data-model constraint: batch quantities are never negative. -/
def NonnegBatches (st : LedgerState) : Prop :=
  ∀ b ∈ st.batches, 0 ≤ b.quantity

end StockaDoodle

namespace StockaDoodle

/-- Claim C2: in any serialization of N concurrent `allocate_id` calls for
collection `x` (each call a single atomic increment, interleaved arbitrarily
with calls for other collections), the values returned for `x` are exactly
`c0+1, c0+2, ..., c0+N` in order, where `c0` is the counter's prior value and
`N` the number of `x`-calls; in particular they are pairwise distinct and,
sorted, form a gap-free sequence starting from the prior value. -/
theorem allocate_id_distinct_gapfree (ctr : String → Int) (trace : List String)
    (x : String) :
    returnedFor x (runTrace ctr trace) = idsFrom (ctr x) (trace.count x) ∧
    (returnedFor x (runTrace ctr trace)).Nodup := by
  refine ⟨returnedFor_runTrace ctr trace x, ?_⟩
  rw [returnedFor_runTrace ctr trace x]
  exact idsFrom_nodup (ctr x) (trace.count x)

/-- Claim C10: the id a document ends up with after `save` is its existing id
when one is set, and the freshly allocated next sequence value otherwise;
moreover a document whose id is already set is returned unchanged with the
counter store untouched, so ids are immutable across re-saves. -/
theorem save_preserves_existing_id (ctr : String → Int) (d : MDoc) :
    (save ctr d).1.id =
      (match d.id with
       | some n => some n
       | none => some (ctr d.collection + 1)) ∧
    (d.id ≠ none → save ctr d = (d, ctr)) := by
  cases h : d.id with
  | none => simp [save, h, get_next_sequence]
  | some n => simp [save, h]

/-- Witness for claim C10 at a concrete document with id already set. -/
theorem save_preserves_existing_id_witness :
    save (fun _ => 41) { id := some 7, collection := "product", payload := "p" } =
      ({ id := some 7, collection := "product", payload := "p" }, fun _ => 41) :=
  (save_preserves_existing_id (fun _ => 41)
    { id := some 7, collection := "product", payload := "p" }).2 (by decide)

end StockaDoodle

namespace StockaDoodle

/-! ### Ledger bookkeeping lemmas -/

lemma sumQty_cons (pid : Int) (a : StockBatch) (l : List StockBatch) :
    sumQty pid (a :: l) =
      (if a.product_id = pid then a.quantity else 0) + sumQty pid l := by
  simp [sumQty]

lemma sumQty_append_single (pid : Int) (l : List StockBatch) (b : StockBatch) :
    sumQty pid (l ++ [b]) =
      sumQty pid l + (if b.product_id = pid then b.quantity else 0) := by
  simp [sumQty]

lemma sumQty_disposeFirst (bid q pid : Int) (l : List StockBatch) (b : StockBatch)
    (h : l.find? (fun x => x.id == bid) = some b) :
    sumQty pid (disposeFirst bid q l) =
      sumQty pid l - (if b.product_id = pid then q else 0) := by
  induction l with
  | nil => simp at h
  | cons a rest ih =>
    rw [List.find?_cons] at h
    by_cases ha : a.id = bid
    · simp only [ha, beq_self_eq_true] at h
      cases h
      simp only [disposeFirst, beq_iff_eq, if_pos ha, sumQty_cons]
      split_ifs <;> ring
    · have hf : (a.id == bid) = false := by simp [ha]
      simp only [hf] at h
      simp only [disposeFirst, beq_iff_eq, if_neg ha, sumQty_cons, ih h]
      ring

lemma sumQty_removeFirst (bid pid : Int) (l : List StockBatch) (b : StockBatch)
    (h : l.find? (fun x => x.id == bid) = some b) :
    sumQty pid (removeFirst bid l) =
      sumQty pid l - (if b.product_id = pid then b.quantity else 0) := by
  induction l with
  | nil => simp at h
  | cons a rest ih =>
    rw [List.find?_cons] at h
    by_cases ha : a.id = bid
    · simp only [ha, beq_self_eq_true] at h
      cases h
      simp only [removeFirst, beq_iff_eq, if_pos ha, sumQty_cons]
      ring
    · have hf : (a.id == bid) = false := by simp [ha]
      simp only [hf] at h
      simp only [removeFirst, beq_iff_eq, if_neg ha, sumQty_cons, ih h]
      ring

lemma removeFirst_length (bid : Int) (l : List StockBatch) (b : StockBatch)
    (h : l.find? (fun x => x.id == bid) = some b) :
    (removeFirst bid l).length + 1 = l.length := by
  induction l with
  | nil => simp at h
  | cons a rest ih =>
    rw [List.find?_cons] at h
    by_cases ha : a.id = bid
    · simp [removeFirst, ha]
    · have hf : (a.id == bid) = false := by simp [ha]
      simp only [hf] at h
      simp only [removeFirst, beq_iff_eq, if_neg ha, List.length_cons]
      rw [← ih h]

lemma mem_removeFirst (bid : Int) (l : List StockBatch) (x : StockBatch)
    (hx : x ∈ removeFirst bid l) : x ∈ l := by
  induction l with
  | nil => simp [removeFirst] at hx
  | cons a rest ih =>
    by_cases ha : a.id = bid
    · simp only [removeFirst, beq_iff_eq, if_pos ha] at hx
      exact List.mem_cons_of_mem a hx
    · simp only [removeFirst, beq_iff_eq, if_neg ha, List.mem_cons] at hx
      rcases hx with rfl | hx
      · exact List.mem_cons_self x rest
      · exact List.mem_cons_of_mem a (ih hx)

lemma disposeFirst_nonneg (bid q : Int) (l : List StockBatch) (b : StockBatch)
    (hnn : ∀ x ∈ l, 0 ≤ x.quantity)
    (h : l.find? (fun x => x.id == bid) = some b) (hq : q ≤ b.quantity) :
    ∀ x ∈ disposeFirst bid q l, 0 ≤ x.quantity := by
  induction l with
  | nil => simp at h
  | cons a rest ih =>
    rw [List.find?_cons] at h
    by_cases ha : a.id = bid
    · simp only [ha, beq_self_eq_true] at h
      cases h
      intro x hx
      simp only [disposeFirst, beq_iff_eq, if_pos ha, List.mem_cons] at hx
      rcases hx with rfl | hx
      · simpa using sub_nonneg.mpr hq
      · exact hnn x (List.mem_cons_of_mem b hx)
    · have hf : (a.id == bid) = false := by simp [ha]
      simp only [hf] at h
      intro x hx
      simp only [disposeFirst, beq_iff_eq, if_neg ha, List.mem_cons] at hx
      rcases hx with rfl | hx
      · exact hnn x (List.mem_cons_self x rest)
      · exact ih (fun y hy => hnn y (List.mem_cons_of_mem a hy)) h x hx

/-- A single ledger call preserves the stock-level invariant and batch
nonnegativity, whether it succeeds or fails. -/
lemma applyOp_preserves (st : LedgerState) (op : LedgerOp)
    (hInv : Inv st) (hnn : NonnegBatches st) :
    Inv (applyOp st op) ∧ NonnegBatches (applyOp st op) := by
  cases op with
  | add pid qty exp =>
    by_cases hq : qty ≤ 0
    · simpa [applyOp, add_batch, hq] using And.intro hInv hnn
    · cases hfind : st.products.find? (fun p => p.id == pid) with
      | none => simpa [applyOp, add_batch, hq, hfind] using And.intro hInv hnn
      | some p0 =>
        have happ : applyOp st (.add pid qty exp) =
            { seq := st.seq + 1, products := bumpStock pid qty st.products,
              batches := st.batches ++
                [{ id := st.seq + 1, product_id := pid, quantity := qty,
                   expiration_date := exp }] } := by
          simp [applyOp, add_batch, hq, hfind]
        rw [happ]
        constructor
        · intro p' hp'
          simp only [bumpStock, List.mem_map] at hp'
          obtain ⟨p, hp, rfl⟩ := hp'
          by_cases hpp : p.id = pid
          · simp only [if_pos hpp, sumQty_append_single]
            rw [hInv p hp, hpp]
            simp
          · simp only [if_neg hpp, sumQty_append_single]
            rw [hInv p hp]
            simp [Ne.symm hpp]
        · intro x hx
          simp only [List.mem_append, List.mem_singleton] at hx
          rcases hx with hx | rfl
          · exact hnn x hx
          · simpa using le_of_lt (by omega : (0 : Int) < qty)
  | disp bid q =>
    by_cases hq : q ≤ 0
    · simpa [applyOp, dispose, hq] using And.intro hInv hnn
    · cases hfind : st.batches.find? (fun x => x.id == bid) with
      | none => simpa [applyOp, dispose, hq, hfind] using And.intro hInv hnn
      | some b =>
        by_cases hlt : b.quantity < q
        · simpa [applyOp, dispose, hq, hfind, hlt] using And.intro hInv hnn
        · have happ : applyOp st (.disp bid q) =
              { st with batches := disposeFirst bid q st.batches,
                        products := bumpStock b.product_id (-q) st.products } := by
            simp [applyOp, dispose, hq, hfind, hlt]
          rw [happ]
          constructor
          · intro p' hp'
            simp only [bumpStock, List.mem_map] at hp'
            obtain ⟨p, hp, rfl⟩ := hp'
            by_cases hpp : p.id = b.product_id
            · simp only [if_pos hpp]
              rw [sumQty_disposeFirst bid q _ _ b hfind, hInv p hp]
              simp [hpp]
              ring
            · simp only [if_neg hpp]
              rw [sumQty_disposeFirst bid q _ _ b hfind, hInv p hp]
              simp [Ne.symm hpp]
          · intro x hx
            exact disposeFirst_nonneg bid q st.batches b hnn hfind (le_of_not_lt hlt) x hx
  | del bid =>
    cases hfind : st.batches.find? (fun x => x.id == bid) with
    | none => simpa [applyOp, delete_batch, hfind] using And.intro hInv hnn
    | some b =>
      by_cases hpos : 0 < b.quantity
      · simpa [applyOp, delete_batch, hfind, hpos] using And.intro hInv hnn
      · have hb0 : b.quantity = 0 := by
          have := hnn b (List.mem_of_find?_eq_some hfind)
          omega
        have happ : applyOp st (.del bid) =
            { st with batches := removeFirst bid st.batches } := by
          simp [applyOp, delete_batch, hfind, hpos]
        rw [happ]
        constructor
        · intro p hp
          rw [sumQty_removeFirst bid p.id _ b hfind, hInv p hp, hb0]
          simp
        · intro x hx
          exact hnn x (mem_removeFirst bid st.batches x hx)

end StockaDoodle

namespace StockaDoodle

/-- Claim C1: for every product, after any sequence of `add_batch`, `dispose`
and `delete_batch` calls (failed calls leaving state unchanged), the
product's `stock_level` field equals the sum of `quantity` over all of the
product's non-deleted stock batches, zero-quantity batches included until
deleted; batch quantities also stay nonnegative throughout. -/
theorem stock_level_invariant_preserved (st : LedgerState) (ops : List LedgerOp)
    (hInv : Inv st) (hnn : NonnegBatches st) :
    Inv (runOps st ops) ∧ NonnegBatches (runOps st ops) := by
  induction ops generalizing st with
  | nil => exact ⟨hInv, hnn⟩
  | cons op rest ih =>
    have hstep := applyOp_preserves st op hInv hnn
    have hrun : runOps st (op :: rest) = runOps (applyOp st op) rest := by
      simp [runOps, List.foldl]
    rw [hrun]
    exact ih (applyOp st op) hstep.1 hstep.2

/-- A small concrete store and call sequence exercising all three ledger
operations, including failing calls. -/
def exState : LedgerState :=
  { seq := 0,
    products := [{ id := 1, min_stock_level := 5, stock_level := 0 }],
    batches := [] }

def exOps : List LedgerOp :=
  [LedgerOp.add 1 5 (some 100), LedgerOp.disp 1 2, LedgerOp.disp 1 9,
   LedgerOp.del 1, LedgerOp.disp 1 3, LedgerOp.del 1]

/-- Witness for claim C1 on a concrete store and operation sequence. -/
theorem stock_level_invariant_witness :
    Inv (runOps exState exOps) ∧ NonnegBatches (runOps exState exOps) :=
  stock_level_invariant_preserved exState exOps
    (by unfold Inv; decide) (by unfold NonnegBatches; decide)

/-- Claim C8: disposing from a batch a quantity strictly greater than the
batch's current quantity always fails with `InsufficientQuantity`, and the
persisted state is left completely unchanged — no partial decrement of the
batch or of the product's `stock_level`. -/
theorem dispose_insufficient_fails (st : LedgerState) (bid q : Int) (b : StockBatch)
    (hfind : st.batches.find? (fun x => x.id == bid) = some b)
    (hb : 0 ≤ b.quantity) (hq : b.quantity < q) :
    dispose st bid q = .error .InsufficientQuantity ∧
    applyOp st (.disp bid q) = st := by
  have hq0 : ¬ (q ≤ 0) := by omega
  have hd : dispose st bid q = .error .InsufficientQuantity := by
    simp [dispose, hq0, hfind, hq]
  exact ⟨hd, by simp [applyOp, hd]⟩

def exStateC8 : LedgerState :=
  { seq := 1,
    products := [{ id := 1, min_stock_level := 5, stock_level := 3 }],
    batches := [{ id := 1, product_id := 1, quantity := 3, expiration_date := none }] }

/-- Witness for claim C8: disposing 5 units from a batch holding 3 fails and
changes nothing. -/
theorem dispose_insufficient_witness :
    dispose exStateC8 1 5 = .error .InsufficientQuantity ∧
    applyOp exStateC8 (.disp 1 5) = exStateC8 :=
  dispose_insufficient_fails exStateC8 1 5
    { id := 1, product_id := 1, quantity := 3, expiration_date := none }
    (by decide) (by decide) (by decide)

/-- Claim C9: `delete_batch` on a batch whose quantity is still positive
always fails with `BatchNotEmpty` and removes nothing; on a batch whose
quantity is 0 it succeeds and removes that batch (the batch list shrinks by
exactly one entry). -/
theorem delete_batch_guard (st : LedgerState) (bid : Int) (b : StockBatch)
    (hfind : st.batches.find? (fun x => x.id == bid) = some b) :
    (0 < b.quantity →
      delete_batch st bid = .error .BatchNotEmpty ∧ applyOp st (.del bid) = st) ∧
    (b.quantity = 0 →
      delete_batch st bid = .ok { st with batches := removeFirst bid st.batches } ∧
      (removeFirst bid st.batches).length + 1 = st.batches.length) := by
  constructor
  · intro hpos
    have hd : delete_batch st bid = .error .BatchNotEmpty := by
      simp [delete_batch, hfind, hpos]
    exact ⟨hd, by simp [applyOp, hd]⟩
  · intro h0
    have hnp : ¬ (0 < b.quantity) := by omega
    exact ⟨by simp [delete_batch, hfind, hnp],
      removeFirst_length bid st.batches b hfind⟩

def exStateC9 : LedgerState :=
  { seq := 7,
    products := [{ id := 1, min_stock_level := 5, stock_level := 4 }],
    batches := [{ id := 6, product_id := 1, quantity := 4, expiration_date := none },
                { id := 7, product_id := 1, quantity := 0, expiration_date := some 30 }] }

/-- Witness for claim C9: deleting a zero-quantity batch succeeds and removes
exactly that batch. -/
theorem delete_batch_guard_witness :
    delete_batch exStateC9 7 =
      .ok { exStateC9 with batches := removeFirst 7 exStateC9.batches } ∧
    (removeFirst 7 exStateC9.batches).length + 1 = exStateC9.batches.length :=
  (delete_batch_guard exStateC9 7
    { id := 7, product_id := 1, quantity := 0, expiration_date := some 30 }
    (by decide)).2 (by decide)

end StockaDoodle

namespace StockaDoodle

/-! ## Report generator (`api_server/core/report_generator.py`)

The ORM view of the store: a product carries its batch relationship, a
category carries its product relationship, mirroring `category.products` and
`product.stock_batches` used by the reports. -/

structure Product where
  id : Int
  name : String
  min_stock_level : Int
  stock_level : Int
  stock_batches : List StockBatch
  deriving Repr, DecidableEq

structure Category where
  id : Int
  name : String
  products : List Product
  deriving Repr, DecidableEq

/-- Python's `round(x, 2)` at presentation time (rounding of exact rational
values to two decimal places; the half-tie direction is irrelevant to every
property proved below, which only uses that the error is at most 1/200). -/
def round2 (x : ℚ) : ℚ := ((round (100 * x) : ℤ) : ℚ) / 100

lemma abs_round2_sub (x : ℚ) : |round2 x - x| ≤ 1 / 200 := by
  have h : round2 x - x = (((round (100 * x) : ℤ) : ℚ) - 100 * x) / 100 := by
    unfold round2
    field_simp
  rw [h, abs_div]
  have h2 : |((round (100 * x) : ℤ) : ℚ) - 100 * x| ≤ 1 / 2 := by
    have := abs_sub_round (100 * x)
    rwa [abs_sub_comm] at this
  rw [show |(100 : ℚ)| = 100 by norm_num]
  linarith

/-! ### Report 2: category distribution (lines 87-131) -/

/-- Stock held by one product: `sum(batch.quantity for batch in
product.stock_batches)`. -/
def productStock (p : Product) : Int :=
  (p.stock_batches.map (fun b => b.quantity)).sum

/-- Stock held by one category: the nested sum over its products. -/
def categoryStock (c : Category) : Int :=
  (c.products.map productStock).sum

/-- `total_stock` over all categories (line 100-104). -/
def totalStock (cats : List Category) : Int :=
  (cats.map categoryStock).sum

/-- Line 113: `(category_stock / total_stock * 100) if total_stock > 0 else 0`. -/
def percentageShare (category_stock total_stock : Int) : ℚ :=
  if 0 < total_stock then (category_stock : ℚ) / (total_stock : ℚ) * 100 else 0

structure CategoryRow where
  category_id : Int
  category_name : String
  number_of_products : Nat
  total_stock_quantity : Int
  percentage_share : ℚ
  deriving Repr, DecidableEq

structure CategoryReport where
  report_id : Nat
  categories : List CategoryRow
  total_categories : Nat
  total_stock : Int
  deriving Repr, DecidableEq

def categoryRow (total : Int) (c : Category) : CategoryRow :=
  { category_id := c.id, category_name := c.name,
    number_of_products := c.products.length,
    total_stock_quantity := categoryStock c,
    percentage_share := round2 (percentageShare (categoryStock c) total) }

/-- Embedding of `category_distribution_report` (lines 87-131). -/
def category_distribution_report (cats : List Category) : CategoryReport :=
  { report_id := 2,
    categories := cats.map (categoryRow (totalStock cats)),
    total_categories := cats.length,
    total_stock := totalStock cats }

lemma sum_map_cast_categoryStock (l : List Category) :
    (l.map (fun c => ((categoryStock c : Int) : ℚ))).sum = ((totalStock l : Int) : ℚ) := by
  unfold totalStock
  induction l with
  | nil => simp
  | cons a rest ih => simp [List.map_cons, ih]

lemma sum_map_percentageShare (l : List Category) (T : Int) (hT : 0 < T) :
    (l.map (fun c => percentageShare (categoryStock c) T)).sum =
      ((l.map (fun c => ((categoryStock c : Int) : ℚ))).sum) / (T : ℚ) * 100 := by
  induction l with
  | nil => simp
  | cons a rest ih =>
    rw [List.map_cons, List.sum_cons, List.map_cons, List.sum_cons, ih]
    rw [percentageShare, if_pos hT]
    ring

lemma sum_map_round2_bound (l : List ℚ) :
    |(l.map round2).sum - l.sum| ≤ (l.length : ℚ) / 200 := by
  induction l with
  | nil => simp
  | cons a rest ih =>
    simp only [List.map_cons, List.sum_cons, List.length_cons]
    have h1 : (round2 a + (rest.map round2).sum) - (a + rest.sum) =
        (round2 a - a) + ((rest.map round2).sum - rest.sum) := by ring
    rw [h1]
    calc |(round2 a - a) + ((rest.map round2).sum - rest.sum)|
        ≤ |round2 a - a| + |(rest.map round2).sum - rest.sum| := abs_add _ _
      _ ≤ 1 / 200 + (rest.length : ℚ) / 200 := by
          have := abs_round2_sub a
          linarith
      _ = ((rest.length + 1 : Nat) : ℚ) / 200 := by push_cast; ring

end StockaDoodle

namespace StockaDoodle

/-- Claim C5: every category row's percentage share is
`category_stock / total_stock * 100` (computed as 0 when total stock is not
positive, so the division is never performed with a zero divisor); when total
stock is positive the unrounded shares sum to exactly 100 and the rounded
shares in the report sum to 100 within the rounding epsilon of 1/200 per
category; when total stock is 0 every reported percentage is 0. -/
theorem category_percentages_sum (cats : List Category) :
    (0 < totalStock cats →
      (cats.map (fun c => percentageShare (categoryStock c) (totalStock cats))).sum = 100 ∧
      |(((category_distribution_report cats).categories.map
          (fun r => r.percentage_share)).sum) - 100| ≤ (cats.length : ℚ) / 200) ∧
    (totalStock cats = 0 →
      ∀ r ∈ (category_distribution_report cats).categories, r.percentage_share = 0) := by
  constructor
  · intro hT
    have hTQ : ((totalStock cats : Int) : ℚ) ≠ 0 := by
      exact_mod_cast (by omega : totalStock cats ≠ 0)
    have hsum : (cats.map (fun c => percentageShare (categoryStock c) (totalStock cats))).sum
        = 100 := by
      rw [sum_map_percentageShare cats (totalStock cats) hT,
        sum_map_cast_categoryStock cats]
      field_simp
    refine ⟨hsum, ?_⟩
    have hrows : (category_distribution_report cats).categories.map
        (fun r => r.percentage_share) =
        (cats.map (fun c => percentageShare (categoryStock c) (totalStock cats))).map
          round2 := by
      simp [category_distribution_report, categoryRow, List.map_map, Function.comp]
    rw [hrows]
    have hb := sum_map_round2_bound
      (cats.map (fun c => percentageShare (categoryStock c) (totalStock cats)))
    rw [hsum] at hb
    simpa using hb
  · intro hT r hr
    simp only [category_distribution_report, List.mem_map] at hr
    obtain ⟨c, _, rfl⟩ := hr
    simp [categoryRow, percentageShare, hT, round2]

def exCategories : List Category :=
  [{ id := 1, name := "A",
     products := [{ id := 1, name := "p1", min_stock_level := 2, stock_level := 3,
                    stock_batches := [{ id := 1, product_id := 1, quantity := 3,
                                        expiration_date := none }] }] },
   { id := 2, name := "B",
     products := [{ id := 2, name := "p2", min_stock_level := 2, stock_level := 1,
                    stock_batches := [{ id := 2, product_id := 2, quantity := 1,
                                        expiration_date := some 10 }] }] }]

/-- Witness for claim C5 on a concrete store with positive total stock. -/
theorem category_percentages_witness :
    (exCategories.map
      (fun c => percentageShare (categoryStock c) (totalStock exCategories))).sum = 100 ∧
    |(((category_distribution_report exCategories).categories.map
        (fun r => r.percentage_share)).sum) - 100| ≤ (exCategories.length : ℚ) / 200 :=
  (category_percentages_sum exCategories).1 (by decide)

end StockaDoodle

namespace StockaDoodle

/-! ### Report 4: low-stock and expiration alerts (lines 176-238) -/

/-- Line 209: `batch.expiration_date and batch.expiration_date <= cutoff_date
and batch.quantity > 0`. -/
def isExpiringSoon (cutoff : Int) (b : StockBatch) : Bool :=
  match b.expiration_date with
  | some d => decide (d ≤ cutoff) && decide (0 < b.quantity)
  | none => false

/-- Lines 207-210: the batches of `p` that are expiring within the horizon,
in the order the product's batch relationship yields them (no sort). -/
def expiringBatchesOf (cutoff : Int) (p : Product) : List StockBatch :=
  p.stock_batches.filter (isExpiringSoon cutoff)

/-- Lines 199-204: the low-stock portion of `alert_status`. -/
def lowStockTags (p : Product) : List String :=
  if p.stock_level < p.min_stock_level then
    (if p.stock_level = 0 then ["OUT_OF_STOCK"] else ["LOW_STOCK"])
  else []

/-- Lines 199-213: the complete `alert_status` tag list for one product. -/
def alertTags (cutoff : Int) (p : Product) : List String :=
  lowStockTags p ++ (if expiringBatchesOf cutoff p = [] then [] else ["EXPIRING_SOON"])

/-- Line 214: `min(b.expiration_date for b in expiring_batches)`, `None` when
no batch is expiring. -/
def earliestExpiry (cutoff : Int) (p : Product) : Option Int :=
  ((expiringBatchesOf cutoff p).filterMap (fun b => b.expiration_date)).min?

structure AlertRow where
  product_id : Int
  product_name : String
  current_stock : Int
  min_stock_level : Int
  expiration_date : Option Int
  alert_status : List String
  severity : String
  deriving Repr, DecidableEq

/-- Lines 195-227: the alert row for one product, `none` when the tag list is
empty (line 218: `if alert_status:`). -/
def productAlert (today days_ahead : Int) (p : Product) : Option AlertRow :=
  let cutoff := today + days_ahead
  let tags := alertTags cutoff p
  if tags = [] then none
  else some { product_id := p.id, product_name := p.name,
              current_stock := p.stock_level, min_stock_level := p.min_stock_level,
              expiration_date := earliestExpiry cutoff p,
              alert_status := tags,
              severity := if "OUT_OF_STOCK" ∈ tags then "CRITICAL" else "WARNING" }

structure AlertReport where
  report_id : Nat
  alerts : List AlertRow
  total_alerts : Nat
  critical_alerts : Nat
  warning_alerts : Nat
  deriving Repr, DecidableEq

/-- Embedding of `low_stock_and_expiration_alert_report` (lines 176-238). -/
def low_stock_and_expiration_alert_report (today days_ahead : Int)
    (products : List Product) : AlertReport :=
  let alerts := products.filterMap (productAlert today days_ahead)
  { report_id := 4,
    alerts := alerts,
    total_alerts := alerts.length,
    critical_alerts := (alerts.filter (fun a => a.severity == "CRITICAL")).length,
    warning_alerts := (alerts.filter (fun a => a.severity == "WARNING")).length }

end StockaDoodle

namespace StockaDoodle

/-- A product with `min_stock_level = 0` and `stock_level = 0`: the code
emits no alert row and no OUT_OF_STOCK tag for it. -/
def pZeroMin : Product :=
  { id := 1, name := "P", min_stock_level := 0, stock_level := 0, stock_batches := [] }

/-- Claim C3 counterexample: the claim says OUT_OF_STOCK is tagged if and only
if `stock_level == 0`, but for a product with `stock_level = 0` and
`min_stock_level = 0` the code's low-stock guard `stock < min_stock_level`
is false, so no OUT_OF_STOCK tag is produced and no alert row is emitted at
all. -/
theorem alert_out_of_stock_iff_cex :
    pZeroMin.stock_level = 0 ∧
    "OUT_OF_STOCK" ∉ alertTags (0 + 7) pZeroMin ∧
    productAlert 0 7 pZeroMin = none := by decide

/-- Claim C3 (amended): for products with nonnegative stock, OUT_OF_STOCK is
tagged iff `stock_level = 0` AND `min_stock_level > 0` (the code only tags it
inside the `stock < min_stock_level` branch); LOW_STOCK is tagged iff
`0 < stock_level < min_stock_level`; an emitted row has severity CRITICAL iff
OUT_OF_STOCK is among its tags and WARNING otherwise; and no row is emitted
iff the tag list is empty. -/
theorem alert_classification_amended (today days_ahead : Int) (p : Product)
    (h : 0 ≤ p.stock_level) :
    ("OUT_OF_STOCK" ∈ alertTags (today + days_ahead) p ↔
      p.stock_level = 0 ∧ 0 < p.min_stock_level) ∧
    ("LOW_STOCK" ∈ alertTags (today + days_ahead) p ↔
      0 < p.stock_level ∧ p.stock_level < p.min_stock_level) ∧
    (∀ row, productAlert today days_ahead p = some row →
      (row.severity = "CRITICAL" ↔ "OUT_OF_STOCK" ∈ row.alert_status)) ∧
    (productAlert today days_ahead p = none ↔
      alertTags (today + days_ahead) p = []) := by
  refine ⟨?_, ?_, ?_, ?_⟩
  · simp only [alertTags, lowStockTags, List.mem_append]
    split_ifs with h1 h2 h3 <;> simp <;> omega
  · simp only [alertTags, lowStockTags, List.mem_append]
    split_ifs with h1 h2 h3 <;> simp <;> omega
  · intro row hrow
    simp only [productAlert] at hrow
    by_cases htag : alertTags (today + days_ahead) p = []
    · simp [htag] at hrow
    · rw [if_neg htag] at hrow
      injection hrow with hrow
      subst hrow
      by_cases hmem : "OUT_OF_STOCK" ∈ alertTags (today + days_ahead) p
      · simp [hmem]
      · simp [hmem]
  · by_cases htag : alertTags (today + days_ahead) p = [] <;>
      simp [productAlert, htag]

/-- The spec's C3 scenario product: `min_stock_level = 10`, `stock_level = 0`. -/
def pScenario : Product :=
  { id := 3, name := "S", min_stock_level := 10, stock_level := 0, stock_batches := [] }

/-- Witness for claim C3 (amended) at the spec scenario product. -/
theorem alert_classification_witness :
    "OUT_OF_STOCK" ∈ alertTags (0 + 7) pScenario ↔
      pScenario.stock_level = 0 ∧ 0 < pScenario.min_stock_level :=
  (alert_classification_amended 0 7 pScenario (by decide)).1

end StockaDoodle

namespace StockaDoodle

lemma isExpiringSoon_iff (cutoff : Int) (b : StockBatch) :
    isExpiringSoon cutoff b = true ↔
      0 < b.quantity ∧ ∃ d, b.expiration_date = some d ∧ d ≤ cutoff := by
  cases hexp : b.expiration_date with
  | none => simp [isExpiringSoon, hexp]
  | some d =>
    simp only [isExpiringSoon, hexp, Bool.and_eq_true, decide_eq_true_eq,
      Option.some.injEq]
    constructor
    · rintro ⟨h1, h2⟩
      exact ⟨h2, d, rfl, h1⟩
    · rintro ⟨h1, d2, rfl, h2⟩
      exact ⟨h2, h1⟩

/-- A product whose batch relationship yields the later-expiring batch first:
both batches pass the expiration filter, and the filtered list keeps that
order, so it is not ascending by expiration date. -/
def pUnsorted : Product :=
  { id := 2, name := "Q", min_stock_level := 0, stock_level := 8,
    stock_batches :=
      [{ id := 12, product_id := 2, quantity := 3, expiration_date := some 200 },
       { id := 11, product_id := 2, quantity := 5, expiration_date := some 100 }] }

/-- Claim C4 counterexample: the code (lines 207-210) builds the expiring
list with a bare filter and never sorts it, so for a product whose stored
batch order is descending by expiration the result is not ascending by
expiration date, contradicting the claimed ordering. -/
theorem expiring_batches_unsorted_cex :
    expiringBatchesOf 365 pUnsorted =
      [{ id := 12, product_id := 2, quantity := 3, expiration_date := some 200 },
       { id := 11, product_id := 2, quantity := 5, expiration_date := some 100 }] ∧
    ¬ (expiringBatchesOf 365 pUnsorted).Pairwise
        (fun b1 b2 => b1.expiration_date.getD 0 ≤ b2.expiration_date.getD 0) := by
  constructor
  · rfl
  · decide

/-- Claim C4 (amended): `expiring_batches` returns exactly the batches with
`quantity > 0` and a non-null `expiration_date <= today + horizon_days`, in
the product's stored batch order (a sublist of it — the code applies no
sort), and the expiration date surfaced in the alert row is the minimum
expiration date among those batches. -/
theorem expiring_batches_amended (cutoff : Int) (p : Product) :
    (∀ b, b ∈ expiringBatchesOf cutoff p ↔
      b ∈ p.stock_batches ∧ 0 < b.quantity ∧
      ∃ d, b.expiration_date = some d ∧ d ≤ cutoff) ∧
    (expiringBatchesOf cutoff p).Sublist p.stock_batches ∧
    (expiringBatchesOf cutoff p ≠ [] →
      ∃ m, earliestExpiry cutoff p = some m ∧
        (∀ b ∈ expiringBatchesOf cutoff p, ∀ d, b.expiration_date = some d → m ≤ d) ∧
        (∃ b ∈ expiringBatchesOf cutoff p, b.expiration_date = some m)) := by
  refine ⟨?_, ?_, ?_⟩
  · intro b
    rw [expiringBatchesOf, List.mem_filter, isExpiringSoon_iff]
  · exact List.filter_sublist _
  · intro hne
    cases hmin : ((expiringBatchesOf cutoff p).filterMap
        (fun b => b.expiration_date)).min? with
    | none =>
      rw [List.min?_eq_none_iff] at hmin
      obtain ⟨b0, hb0⟩ := List.exists_mem_of_ne_nil _ hne
      have hb0e := (List.mem_filter.mp hb0).2
      rw [isExpiringSoon_iff] at hb0e
      obtain ⟨_, d, hd, _⟩ := hb0e
      have : d ∈ (expiringBatchesOf cutoff p).filterMap (fun b => b.expiration_date) :=
        List.mem_filterMap.mpr ⟨b0, hb0, hd⟩
      rw [hmin] at this
      simp at this
    | some m =>
      refine ⟨m, hmin, ?_, ?_⟩
      · intro b hb d hd
        have hdm : d ∈ (expiringBatchesOf cutoff p).filterMap
            (fun b => b.expiration_date) :=
          List.mem_filterMap.mpr ⟨b, hb, hd⟩
        have hle : ∀ y ∈ (expiringBatchesOf cutoff p).filterMap
            (fun b => b.expiration_date), m ≤ y :=
          (List.le_min?_iff (fun a b c => le_min_iff) hmin).1 (le_refl m)
        exact hle d hdm
      · have hm_mem : m ∈ (expiringBatchesOf cutoff p).filterMap
            (fun b => b.expiration_date) :=
          List.min?_mem (fun a b => min_choice a b) hmin
        obtain ⟨b, hb, hd⟩ := List.mem_filterMap.mp hm_mem
        exact ⟨b, hb, hd⟩

/-- The spec's C4 scenario with dates as day offsets from 2023-12-15:
B1 (qty 5, expires day 17 = 2024-01-01) and B2 (qty 3, expires day 169 =
2024-06-01), horizon 30 days. -/
def pFefo : Product :=
  { id := 4, name := "F", min_stock_level := 0, stock_level := 8,
    stock_batches :=
      [{ id := 21, product_id := 4, quantity := 5, expiration_date := some 17 },
       { id := 22, product_id := 4, quantity := 3, expiration_date := some 169 }] }

/-- Witness for claim C4 (amended): the surfaced date is the minimum over the
expiring batches of the scenario product. -/
theorem expiring_batches_witness :
    ∃ m, earliestExpiry 30 pFefo = some m ∧
      (∀ b ∈ expiringBatchesOf 30 pFefo, ∀ d, b.expiration_date = some d → m ≤ d) ∧
      (∃ b ∈ expiringBatchesOf 30 pFefo, b.expiration_date = some m) :=
  (expiring_batches_amended 30 pFefo).2.2 (by decide)

end StockaDoodle

namespace StockaDoodle

/-! ### Reports 1 and 6: sales performance / detailed transactions
(lines 19-85 and 306-322) -/

structure Sale where
  id : Int
  retailer_id : Int
  created_at : Int
  deriving Repr, DecidableEq

structure SaleItem where
  sale_id : Int
  product_id : Int
  quantity : Int
  line_total : ℚ
  deriving Repr, DecidableEq

structure User where
  id : Int
  full_name : String
  role : String
  deriving Repr, DecidableEq

structure SalesDb where
  sales : List Sale
  sale_items : List SaleItem
  products : List Product
  users : List User
  deriving Repr, DecidableEq

/-- One row of the query result (lines 40-55). -/
structure SaleRow where
  sale_id : Int
  created_at : Int
  product_name : String
  quantity : Int
  line_total : ℚ
  retailer_name : String
  deriving Repr, DecidableEq

/-- The inner joins and date filters of the query (lines 40-53): every
combination of sale, item, product and user matching the three join
conditions with `created_at` inside the range. -/
def joinedRows (db : SalesDb) (s e : Int) : List SaleRow :=
  db.sales.flatMap (fun sl =>
    db.sale_items.flatMap (fun it =>
      db.products.flatMap (fun pr =>
        db.users.flatMap (fun u =>
          if sl.id = it.sale_id ∧ it.product_id = pr.id ∧ sl.retailer_id = u.id ∧
             s ≤ sl.created_at ∧ sl.created_at ≤ e
          then [{ sale_id := sl.id, created_at := sl.created_at,
                  product_name := pr.name, quantity := it.quantity,
                  line_total := it.line_total, retailer_name := u.full_name }]
          else []))))

/-- One emitted row of the report (lines 69-79). -/
structure OutRow where
  sale_id : Int
  date : Int
  product_name : String
  quantity_sold : Int
  total_price : ℚ
  retailer_name : String
  deriving Repr, DecidableEq

structure SalesSummary where
  total_income : ℚ
  total_quantity_sold : Int
  total_transactions : Nat
  deriving Repr, DecidableEq

structure SalesReport where
  report_id : Nat
  start_date : Int
  end_date : Int
  sales : List OutRow
  summary : SalesSummary
  deriving Repr, DecidableEq

/-- Embedding of `sales_performance_report` (lines 19-85): date-range
defaults of trailing 30 days ending today, the joined query ordered by
`created_at` descending, the per-row dicts, and the summary built from the
same result set (`total_income` rounded to two decimals at presentation,
`total_transactions` counting distinct sale ids). -/
def sales_performance_report (db : SalesDb) (today : Int)
    (start_date end_date : Option Int) : SalesReport :=
  let s := start_date.getD (today - 30)
  let e := end_date.getD today
  let results := (joinedRows db s e).mergeSort
    (fun r1 r2 => decide (r2.created_at ≤ r1.created_at))
  { report_id := 1,
    start_date := s,
    end_date := e,
    sales := results.map (fun r =>
      { sale_id := r.sale_id, date := r.created_at, product_name := r.product_name,
        quantity_sold := r.quantity, total_price := r.line_total,
        retailer_name := r.retailer_name }),
    summary :=
      { total_income := round2 ((results.map (fun r => r.line_total)).sum),
        total_quantity_sold := (results.map (fun r => r.quantity)).sum,
        total_transactions := ((results.map (fun r => r.sale_id)).dedup).length } }

/-- Embedding of `detailed_sales_transaction_report` (lines 306-322), which
delegates wholesale to `sales_performance_report`. -/
def detailed_sales_transaction_report (db : SalesDb) (today : Int)
    (start_date end_date : Option Int) : SalesReport :=
  sales_performance_report db today start_date end_date

end StockaDoodle

namespace StockaDoodle

/-- Claim C6: for every date range (explicit or defaulted), the sales report
summary's `total_income` is the sum of `total_price` over exactly the rows
emitted in the same report, rounded to two decimals only at presentation;
`total_quantity_sold` is the sum of their quantities; and
`total_transactions` is the number of distinct sale ids among those rows. -/
theorem sales_summary_consistent (db : SalesDb) (today : Int)
    (sd ed : Option Int) :
    (sales_performance_report db today sd ed).summary.total_income =
      round2 ((((sales_performance_report db today sd ed).sales).map
        (fun r => r.total_price)).sum) ∧
    (sales_performance_report db today sd ed).summary.total_quantity_sold =
      (((sales_performance_report db today sd ed).sales).map
        (fun r => r.quantity_sold)).sum ∧
    (sales_performance_report db today sd ed).summary.total_transactions =
      ((((sales_performance_report db today sd ed).sales).map
        (fun r => r.sale_id)).dedup).length := by
  refine ⟨?_, ?_, ?_⟩ <;>
  · simp only [sales_performance_report, List.map_map]
    rfl

/-- Claim C7: report 6 (detailed sales transactions) returns exactly the same
result as report 1 (sales performance) on the same arguments; the two are the
same underlying computation. -/
theorem detailed_report_equals_sales_report (db : SalesDb) (today : Int)
    (sd ed : Option Int) :
    detailed_sales_transaction_report db today sd ed =
      sales_performance_report db today sd ed := rfl

end StockaDoodle
